import Mathlib

/-!
# Rotating magnetic setup: stepper control sketch

Shallow embedding of `stepper.cpp` / `stepper.h` / `screen.cpp`
(directory `2. Electronics/Arduino_Code`).

Target platform.  The sketch includes `SoftwareSerial.h`, talks about
"the Arduino" with one hardware serial port, and casts to `long` before
multiplying a turn count by 3200: it is written for an AVR board.  On AVR
`int` is 16 bits, `long` is 32 bits, `char` is a signed 8 bit type and
`float` and `double` are both IEEE-754 binary32.  The embedding follows
these widths: integers are `Int` reduced into the two's complement range
of their C type, floats are finite binary32 values `m * 2 ^ e` with
round-to-nearest-even after every operation.

External collaborators (the AccelStepper driver, `SoftwareSerial`, the
debug `Serial` port) are not part of the repository; they are modelled from
the specification's black-box contract and carry a doc comment saying so.
-/

namespace RotatingMagneticSetup

/-! ## Machine integers -/

/-- Two's complement reduction of `x` into the signed range of a `w` bit type. -/
def wrapSigned (w : Nat) (x : Int) : Int :=
  (x + 2 ^ (w - 1)) % 2 ^ w - 2 ^ (w - 1)

/-- Value of an expression of C type `int` (16 bits on AVR). -/
def wrapInt (x : Int) : Int := wrapSigned 16 x

/-- Value of an expression of C type `long` (32 bits on AVR). -/
def wrapLong (x : Int) : Int := wrapSigned 32 x

/-- Value of the conversion `(char)x` (signed 8 bit on AVR). -/
def wrapChar (x : Int) : Int := wrapSigned 8 x

/-- Smallest value of `int`. -/
def INT_MIN : Int := -32768

/-- Largest value of `int`. -/
def INT_MAX : Int := 32767

/-- Smallest value of `long`. -/
def LONG_MIN : Int := -2147483648

/-- Largest value of `long`. -/
def LONG_MAX : Int := 2147483647

/-! ## Binary32 floating point -/

/-- Helper for `ilog2`: halve `n` at most `fuel` times. -/
def log2Loop : Nat → Nat → Nat
  | 0, _ => 0
  | fuel + 1, n => if n < 2 then 0 else log2Loop fuel (n / 2) + 1

/-- Floor of the binary logarithm (`0` at `0`). -/
def ilog2 (n : Nat) : Nat := log2Loop n n

/-- The integer nearest to `n / d`, ties going to the even one. -/
def roundHalfEven (n d : Nat) : Nat :=
  let q := n / d
  let r := n % d
  if 2 * r < d then q
  else if d < 2 * r then q + 1
  else if q % 2 = 0 then q else q + 1

/-- A finite binary32 value, `m * 2 ^ e`.  Infinities and NaN are not
represented: no operation of the sketch produces them from a received byte. -/
structure F32 where
  /-- Signed significand. -/
  m : Int
  /-- Exponent of two. -/
  e : Int
deriving DecidableEq, Repr

/-- The rational number a float denotes. -/
def F32.toRat (x : F32) : ℚ := (x.m : ℚ) * (2 : ℚ) ^ x.e

/-- IEEE-754 binary32 rounding (round to nearest, ties to even) of the
rational `n / d`: 24 significand bits, exponent of the unit in the last place
at least `-149`. -/
def F32.round (n : Int) (d : Nat) : F32 :=
  let a := n.natAbs
  if a = 0 ∨ d = 0 then ⟨0, 0⟩ else
  let e0 : Int := (ilog2 a : Int) - (ilog2 d : Int)
  let e : Int := if a * 2 ^ (-e0).toNat < d * 2 ^ e0.toNat then e0 - 1 else e0
  let k : Int := max e (-126) - 23
  let s := roundHalfEven (a * 2 ^ (-k).toNat) (d * 2 ^ k.toNat)
  ⟨if n < 0 then -(s : Int) else (s : Int), k⟩

/-- Conversion of an integer to `float`. -/
def F32.ofInt (n : Int) : F32 := F32.round n 1

/-- Float multiplication: the exact product, rounded. -/
def F32.mul (x y : F32) : F32 :=
  F32.round (x.m * y.m * 2 ^ (x.e + y.e).toNat) (2 ^ (-(x.e + y.e)).toNat)

/-- Float division by a non-zero float: the exact quotient, rounded. -/
def F32.div (x y : F32) : F32 :=
  F32.round (x.m * y.m.sign * 2 ^ (x.e - y.e).toNat) (y.m.natAbs * 2 ^ (y.e - x.e).toNat)

/-- Integer part of a float, rounding toward zero. -/
def F32.trunc (x : F32) : Int :=
  Int.tdiv (x.m * 2 ^ x.e.toNat) (2 ^ (-x.e).toNat)

/-- Conversion of a float to `int`: truncation toward zero.  For a value whose
integer part does not fit in 16 bits the language leaves the result open; the
model keeps the low 16 bits of the integer part, which is what the AVR
compiler's conversion through a 32 bit intermediate yields. -/
def F32.toInt (x : F32) : Int := wrapInt (F32.trunc x)

/-! ## The AccelStepper driver (external library) -/

/-- The state-changing driver primitives the sketch invokes. -/
inductive DriverCall where
  | stop
  | moveTo (absolute : Int)
  | setSpeed (speed : Int)
  | runSpeed
  | runSpeedToPosition
deriving DecidableEq, Repr

/-- Modelled from the spec: the AccelStepper handle `stepper`, whose library
is external.  The specification's motor state has a current position, a target
position and a signed speed; `calls` records, oldest first, the primitives
invoked on the handle. -/
structure AccelStepper where
  /-- Current position in steps (`long`). -/
  currentPos : Int
  /-- Target position in steps (`long`). -/
  targetPos : Int
  /-- Signed speed in steps per second most recently handed to `setSpeed`.
  The argument at both call sites is an `int`, whose conversion to the `float`
  parameter is exact, so the integer is recorded. -/
  speed : Int
  /-- Primitives invoked so far. -/
  calls : List DriverCall
deriving DecidableEq, Repr

/-- Modelled from the spec: `stepper.currentPosition()`, a query. -/
def AccelStepper.currentPosition (st : AccelStepper) : Int := st.currentPos

/-- Modelled from the spec: `stepper.stop()`, "driver stops immediately". -/
def AccelStepper.stop (st : AccelStepper) : AccelStepper :=
  { st with speed := 0, calls := st.calls ++ [DriverCall.stop] }

/-- Modelled from the spec: `stepper.moveTo(absolute)`, "set absolute target". -/
def AccelStepper.moveTo (st : AccelStepper) (absolute : Int) : AccelStepper :=
  { st with targetPos := absolute, calls := st.calls ++ [DriverCall.moveTo absolute] }

/-- Modelled from the spec: `stepper.setSpeed(speed)`, "set signed speed". -/
def AccelStepper.setSpeed (st : AccelStepper) (speed : Int) : AccelStepper :=
  { st with speed := speed, calls := st.calls ++ [DriverCall.setSpeed speed] }

/-- Modelled from the spec: `stepper.runSpeed()`, "advance at constant speed
with no position bound".  Whether a step is due depends on the clock, which is
the input `due`; a due step moves the position by one in the direction of the
speed's sign. -/
def AccelStepper.runSpeed (st : AccelStepper) (due : Bool) : AccelStepper :=
  { st with
    currentPos := if due ∧ st.speed ≠ 0 then wrapLong (st.currentPos + st.speed.sign)
                  else st.currentPos,
    calls := st.calls ++ [DriverCall.runSpeed] }

/-- Modelled from the spec: `stepper.runSpeedToPosition()`, "advance one
increment toward targetPosition at the configured speed, stopping naturally on
arrival". -/
def AccelStepper.runSpeedToPosition (st : AccelStepper) (due : Bool) : AccelStepper :=
  { st with
    currentPos := if due ∧ st.speed ≠ 0 ∧ st.targetPos ≠ st.currentPos
                  then wrapLong (st.currentPos + (st.targetPos - st.currentPos).sign)
                  else st.currentPos,
    calls := st.calls ++ [DriverCall.runSpeedToPosition] }

/-! ## stepper.cpp -/

/-- Source constant `FULL_STEPS_PER_REV`. -/
def FULL_STEPS_PER_REV : Int := 200

/-- Source constant `MICROSTEP_MULTIPLIER`. -/
def MICROSTEP_MULTIPLIER : Int := 16

/-- Source constant `STEPS_PER_REV`, an `int` product. -/
def STEPS_PER_REV : Int := wrapInt (FULL_STEPS_PER_REV * MICROSTEP_MULTIPLIER)

/-- The cap passed to `stepper.setMaxSpeed` in `initStepper`. -/
def MAX_SPEED : Int := 16000

/-- The two globals of `stepper.cpp`: the driver handle and the mode flag. -/
structure Motor where
  /-- Global `stepper`. -/
  stepper : AccelStepper
  /-- Global `Continuous_Mode`. -/
  Continuous_Mode : Bool
deriving DecidableEq, Repr

/-- The expression `(newDir == 'R') ? 1 : (newDir == 'L') ? -1 : 0`. -/
def directionFactor (newDir : Int) : Int :=
  if newDir = ('R'.toNat : Int) then 1 else if newDir = ('L'.toNat : Int) then -1 else 0

/-- The initialiser `int speedStepsPerSec = newSpeed * STEPS_PER_REV`: the
constant is converted to `float`, the product is a `float`, and the result is
converted to `int`. -/
def speedStepsPerSec (newSpeed : F32) : Int :=
  F32.toInt (F32.mul newSpeed (F32.ofInt STEPS_PER_REV))

/-- The argument `directionFactor * speedStepsPerSec` of both `setSpeed`
calls, an `int` product. -/
def signedSpeed (newSpeed : F32) (newDir : Int) : Int :=
  wrapInt (directionFactor newDir * speedStepsPerSec newSpeed)

/-- The expression
`stepper.currentPosition() + (long)directionFactor * newTurns * STEPS_PER_REV`,
evaluated left to right in `long`. -/
def targetPosition (st : AccelStepper) (newTurns : Int) (newDir : Int) : Int :=
  wrapLong (st.currentPosition
    + wrapLong (wrapLong (wrapLong (directionFactor newDir) * newTurns) * STEPS_PER_REV))

/-- Function `updateStepper(float newSpeed, int newTurns, char newDir)`. -/
def updateStepper (newSpeed : F32) (newTurns : Int) (newDir : Int) (mo : Motor) : Motor :=
  if directionFactor newDir = 0 then
    let st := mo.stepper.stop
    { Continuous_Mode := false, stepper := st.moveTo st.currentPosition }
  else
    if newTurns = 0 then
      { Continuous_Mode := true,
        stepper := mo.stepper.setSpeed (signedSpeed newSpeed newDir) }
    else
      { Continuous_Mode := false,
        stepper := (mo.stepper.moveTo (targetPosition mo.stepper newTurns newDir)).setSpeed
          (signedSpeed newSpeed newDir) }

/-- Function `runStepper()`; `due` is the clock input of the driver primitive. -/
def runStepper (due : Bool) (mo : Motor) : Motor :=
  if mo.Continuous_Mode then
    { mo with stepper := mo.stepper.runSpeed due }
  else
    { mo with stepper := mo.stepper.runSpeedToPosition due }

/-! ## screen.cpp -/

/-- A byte on the serial link. -/
abbrev Byte := Fin 256

/-- One `Serial.print` / `Serial.println` call on the debug port. -/
inductive SerialOut where
  | text (s : String)
  | float (x : F32)
  | int (n : Int)
  | charLn (c : Int)
  | textLn (s : String)
deriving DecidableEq, Repr

/-- Modelled from the spec: `displaySerial.available()`, the number of bytes
buffered on the display link. -/
def available (rx : List Byte) : Int := (rx.length : Int)

/-- Modelled from the spec: `displaySerial.read()`, which removes and returns
the oldest buffered byte (`-1` when there is none). -/
def read (rx : List Byte) : Int × List Byte :=
  match rx with
  | [] => (-1, [])
  | b :: rest => ((b.val : Int), rest)

/-- Everything the two polling routines touch. -/
structure State where
  /-- The globals of `stepper.cpp`. -/
  motor : Motor
  /-- Receive buffer of `displaySerial`, oldest byte first. -/
  displaySerial : List Byte
  /-- Output written to the debug port, oldest first. -/
  Serial : List SerialOut
deriving DecidableEq, Repr

/-- The initialiser `float newSpeed = rawSpeed / 10.0`. -/
def parseSpeed (rawSpeed : Int) : F32 :=
  F32.div (F32.ofInt rawSpeed) (F32.ofInt 10)

/-- Function `runScreen()`. -/
def runScreen (s : State) : State :=
  if available s.displaySerial ≥ 3 then
    let r0 := read s.displaySerial
    let rawSpeed := r0.1
    let newSpeed := parseSpeed rawSpeed
    let r1 := read r0.2
    let newTurns := r1.1
    let r2 := read r1.2
    let newDir := wrapChar r2.1
    let out := s.Serial ++
      [SerialOut.text "Screen - Speed = ", SerialOut.float newSpeed,
       SerialOut.text " RPS, Turns = ", SerialOut.int newTurns,
       SerialOut.text ", Dir = ", SerialOut.charLn newDir]
    { motor := updateStepper newSpeed newTurns newDir s.motor,
      displaySerial := r2.2,
      Serial := out ++ [SerialOut.textLn "---------------------"] }
  else s

/-! ## Executions of the polling loop -/

/-- One event of an execution: a `runStepper` call with its clock input, a
`runScreen` call, or the arrival of a byte on the display link. -/
inductive Op where
  | step (due : Bool)
  | poll
  | receive (b : Byte)
deriving DecidableEq, Repr

/-- Effect of one event. -/
def Op.apply (op : Op) (s : State) : State :=
  match op with
  | Op.step due => { s with motor := runStepper due s.motor }
  | Op.poll => runScreen s
  | Op.receive b => { s with displaySerial := s.displaySerial ++ [b] }

/-- Effect of a sequence of events, oldest first. -/
def run : List Op → State → State
  | [], s => s
  | op :: ops, s => run ops (op.apply s)

/-- No `runScreen` call of the sequence finds three or more bytes buffered. -/
def idle : List Op → State → Bool
  | [], _ => true
  | op :: ops, s =>
    (decide (op = Op.poll → s.displaySerial.length < 3)) && idle ops (op.apply s)

/-- The function `runScreen()` called `k` times in a row. -/
def runScreenTimes : Nat → State → State
  | 0, s => s
  | k + 1, s => runScreenTimes k (runScreen s)

/-- The specification's reading of a buffered byte stream: `updateStepper`
applied to the consecutive triples (bytes 3i, 3i+1, 3i+2) in arrival order,
each decoded as speed byte / 10.0, turns byte, direction character. -/
def applyTriples : List Byte → Motor → Motor
  | b0 :: b1 :: b2 :: rest, mo =>
    applyTriples rest
      (updateStepper (parseSpeed (b0.val : Int)) (b1.val : Int) (wrapChar (b2.val : Int)) mo)
  | _, mo => mo

/-! ## Sample states -/

/-- The motor at rest at position `P`: target reached, speed zero, fixed-turn
mode (the initial value of `Continuous_Mode`), no primitive invoked yet. -/
def motorAt (P : Int) : Motor :=
  { stepper := { currentPos := P, targetPos := P, speed := 0, calls := [] },
    Continuous_Mode := false }

/-- The motor at rest at position `P` with `rx` buffered on the display link
and nothing written to the debug port. -/
def stateAt (P : Int) (rx : List Byte) : State :=
  { motor := motorAt P, displaySerial := rx, Serial := [] }

/-! ## Arithmetic helpers -/

theorem wrapLong_eq_self (x : Int) (h1 : LONG_MIN ≤ x) (h2 : x ≤ LONG_MAX) :
    wrapLong x = x := by
  unfold LONG_MIN at h1
  unfold LONG_MAX at h2
  unfold wrapLong wrapSigned
  norm_num
  omega

theorem wrapLong_range (x : Int) : LONG_MIN ≤ wrapLong x ∧ wrapLong x ≤ LONG_MAX := by
  unfold LONG_MIN LONG_MAX wrapLong wrapSigned
  norm_num
  omega

theorem wrapInt_eq_self (x : Int) (h1 : INT_MIN ≤ x) (h2 : x ≤ INT_MAX) :
    wrapInt x = x := by
  unfold INT_MIN at h1
  unfold INT_MAX at h2
  unfold wrapInt wrapSigned
  norm_num
  omega

theorem STEPS_PER_REV_eq : STEPS_PER_REV = 3200 := by decide

theorem directionFactor_R : directionFactor ('R'.toNat : Int) = 1 := by decide

theorem directionFactor_L : directionFactor ('L'.toNat : Int) = -1 := by decide

theorem directionFactor_other (c : Int) (hR : c ≠ ('R'.toNat : Int)) (hL : c ≠ ('L'.toNat : Int)) :
    directionFactor c = 0 := by
  unfold directionFactor
  rw [if_neg hR, if_neg hL]

/-- The step offset of a fixed-turn move never wraps: for a turn count that is
an `int`, the `long` product is the mathematical one. -/
theorem offset_R (N : Int) (h1 : INT_MIN ≤ N) (h2 : N ≤ INT_MAX) :
    wrapLong (wrapLong (wrapLong (directionFactor ('R'.toNat : Int)) * N) * STEPS_PER_REV)
      = N * 3200 := by
  rw [directionFactor_R, STEPS_PER_REV_eq]
  unfold INT_MIN at h1
  unfold INT_MAX at h2
  have e1 : wrapLong 1 = 1 := by decide
  rw [e1, one_mul]
  rw [wrapLong_eq_self N (by unfold LONG_MIN; omega) (by unfold LONG_MAX; omega)]
  exact wrapLong_eq_self _ (by unfold LONG_MIN; omega) (by unfold LONG_MAX; omega)

theorem offset_L (N : Int) (h1 : INT_MIN ≤ N) (h2 : N ≤ INT_MAX) :
    wrapLong (wrapLong (wrapLong (directionFactor ('L'.toNat : Int)) * N) * STEPS_PER_REV)
      = -(N * 3200) := by
  rw [directionFactor_L, STEPS_PER_REV_eq]
  unfold INT_MIN at h1
  unfold INT_MAX at h2
  have e1 : wrapLong (-1) = -1 := by decide
  rw [e1, neg_one_mul]
  rw [wrapLong_eq_self (-N) (by unfold LONG_MIN; omega) (by unfold LONG_MAX; omega)]
  rw [wrapLong_eq_self _ (by unfold LONG_MIN; omega) (by unfold LONG_MAX; omega)]
  ring

/-! ## Frame lemmas -/

theorem runStepper_mode (due : Bool) (mo : Motor) :
    (runStepper due mo).Continuous_Mode = mo.Continuous_Mode := by
  unfold runStepper
  split <;> rfl

theorem runScreen_short (s : State) (h : s.displaySerial.length < 3) : runScreen s = s := by
  unfold runScreen available
  rw [if_neg]
  omega

theorem updateStepper_calls_length (v : F32) (t d : Int) (mo : Motor) :
    mo.stepper.calls.length < (updateStepper v t d mo).stepper.calls.length := by
  unfold updateStepper
  split
  · simp [AccelStepper.moveTo, AccelStepper.stop]
  · split <;> simp [AccelStepper.moveTo, AccelStepper.setSpeed]

theorem run_idle_mode (ops : List Op) :
    ∀ s : State, idle ops s = true →
      (run ops s).motor.Continuous_Mode = s.motor.Continuous_Mode := by
  induction ops with
  | nil => intro s _; rfl
  | cons op ops ih =>
    intro s h
    simp only [idle, Bool.and_eq_true, decide_eq_true_eq] at h
    obtain ⟨hop, hrest⟩ := h
    rw [run, ih _ hrest]
    cases op with
    | step due => exact runStepper_mode due s.motor
    | poll =>
      show (runScreen s).motor.Continuous_Mode = s.motor.Continuous_Mode
      rw [runScreen_short s (hop rfl)]
    | receive b => rfl

/-! ## Speed helpers -/

theorem runScreen_packet (b0 b1 b2 : Byte) (rest : List Byte) (s : State) :
    (runScreen { s with displaySerial := b0 :: b1 :: b2 :: rest }).motor
      = updateStepper (parseSpeed (b0.val : Int)) (b1.val : Int) (wrapChar (b2.val : Int))
          s.motor := by
  have ha : available (b0 :: b1 :: b2 :: rest) ≥ 3 := by
    unfold available
    simp only [List.length_cons]
    omega
  unfold runScreen
  simp only [if_pos ha]
  rfl

theorem updateStepper_speed (v : F32) (t d : Int) (mo : Motor) (hd : directionFactor d ≠ 0) :
    (updateStepper v t d mo).stepper.speed = signedSpeed v d := by
  unfold updateStepper
  rw [if_neg hd]
  split <;> rfl

theorem updateStepper_target (v : F32) (t d : Int) (mo : Motor) (hd : directionFactor d ≠ 0)
    (ht : t ≠ 0) :
    (updateStepper v t d mo).stepper.targetPos = targetPosition mo.stepper t d
    ∧ (updateStepper v t d mo).stepper.currentPos = mo.stepper.currentPos := by
  unfold updateStepper
  rw [if_neg hd, if_neg ht]
  exact ⟨rfl, rfl⟩

theorem toRat_of_nonpos (x : F32) (h : x.e ≤ 0) :
    x.toRat = (x.m : ℚ) / (2 : ℚ) ^ (-x.e).toNat := by
  unfold F32.toRat
  have he : x.e = -((-x.e).toNat : Int) := by
    rw [Int.toNat_of_nonneg (by omega)]
    omega
  rw [div_eq_mul_inv]
  congr 1
  conv_lhs => rw [he]
  rw [zpow_neg, zpow_natCast]

theorem two_zpow_of_nonpos (e : Int) (h : e ≤ 0) :
    (2 : ℚ) ^ e = 1 / (2 : ℚ) ^ (-e).toNat := by
  have he : e = -((-e).toNat : Int) := by
    rw [Int.toNat_of_nonneg (by omega)]
    omega
  conv_lhs => rw [he]
  rw [zpow_neg, zpow_natCast, one_div]

set_option maxRecDepth 100000 in
/-- Sanity check of the rounding: the binary32 values of 0.1, 1/3, 3.6 and
3200 are the familiar ones (significands 0xCCCCCD, 0xAAAAAB, 0xE66666 and
0xC80000). -/
theorem F32_round_known_values :
    F32.round 1 10 = ⟨13421773, -27⟩
    ∧ F32.round 1 3 = ⟨11184811, -25⟩
    ∧ F32.round 36 10 = ⟨15099494, -22⟩
    ∧ F32.ofInt 3200 = ⟨13107200, -12⟩
    ∧ F32.round (-1) 10 = ⟨-13421773, -27⟩ := by
  decide

/-! ## C1: target of a fixed-turn move -/

/-- C1 (counterexample): from the largest `long` position, one turn to the
right does not set the target to P + 1 * 3200: that number is not a `long`,
and the addition wraps to a negative target. -/
theorem C1_target_overflows_at_LONG_MAX :
    (updateStepper (parseSpeed 10) 1 ('R'.toNat : Int)
        { stepper := { currentPos := 2147483647, targetPos := 0, speed := 0, calls := [] },
          Continuous_Mode := false }).stepper.targetPos = -2147480449
    ∧ (updateStepper (parseSpeed 10) 1 ('R'.toNat : Int)
        { stepper := { currentPos := 2147483647, targetPos := 0, speed := 0, calls := [] },
          Continuous_Mode := false }).stepper.targetPos ≠ 2147483647 + 1 * 3200 := by
  decide

/-- C1 (as amended): for every motor state with current position P, every
speed and every turns value N in 1..255, `updateStepper(speed, N, 'R')` and
`updateStepper(speed, N, 'L')` leave Continuous_Mode false; the step offset is
computed in `long` arithmetic without wraparound (+N*3200 resp. -N*3200, so
816000 steps either way at N = 255); and the driver's target position is P + N*3200 resp.
P - N*3200 whenever that number lies in the `long` range. -/
theorem C1_fixed_turn_target (mo : Motor) (newSpeed : F32) (N : Int)
    (h1 : 1 ≤ N) (h2 : N ≤ 255) :
    (updateStepper newSpeed N ('R'.toNat : Int) mo).Continuous_Mode = false
    ∧ (updateStepper newSpeed N ('L'.toNat : Int) mo).Continuous_Mode = false
    ∧ wrapLong (wrapLong (wrapLong (directionFactor ('R'.toNat : Int)) * N) * STEPS_PER_REV)
        = N * 3200
    ∧ wrapLong (wrapLong (wrapLong (directionFactor ('L'.toNat : Int)) * N) * STEPS_PER_REV)
        = -(N * 3200)
    ∧ (LONG_MIN ≤ mo.stepper.currentPos + N * 3200 →
        mo.stepper.currentPos + N * 3200 ≤ LONG_MAX →
        (updateStepper newSpeed N ('R'.toNat : Int) mo).stepper.targetPos
          = mo.stepper.currentPos + N * 3200)
    ∧ (LONG_MIN ≤ mo.stepper.currentPos - N * 3200 →
        mo.stepper.currentPos - N * 3200 ≤ LONG_MAX →
        (updateStepper newSpeed N ('L'.toNat : Int) mo).stepper.targetPos
          = mo.stepper.currentPos - N * 3200) := by
  have hN : N ≠ 0 := by omega
  have oR := offset_R N (by unfold INT_MIN; omega) (by unfold INT_MAX; omega)
  have oL := offset_L N (by unfold INT_MIN; omega) (by unfold INT_MAX; omega)
  have dR : directionFactor ('R'.toNat : Int) ≠ 0 := by decide
  have dL : directionFactor ('L'.toNat : Int) ≠ 0 := by decide
  refine ⟨?_, ?_, oR, oL, ?_, ?_⟩
  · unfold updateStepper
    rw [if_neg dR, if_neg hN]
  · unfold updateStepper
    rw [if_neg dL, if_neg hN]
  · intro a b
    rw [(updateStepper_target newSpeed N _ mo dR hN).1]
    unfold targetPosition AccelStepper.currentPosition
    rw [oR, wrapLong_eq_self _ a b]
  · intro a b
    rw [(updateStepper_target newSpeed N _ mo dL hN).1]
    unfold targetPosition AccelStepper.currentPosition
    rw [oL]
    have e3 : mo.stepper.currentPos + -(N * 3200) = mo.stepper.currentPos - N * 3200 := by ring
    rw [e3, wrapLong_eq_self _ a b]

/-- C1 (witness): from position 0, 255 turns give the targets +816000 and
-816000 exactly. -/
theorem C1_fixed_turn_target_witness :
    (updateStepper (parseSpeed 36) 255 ('R'.toNat : Int)
        { stepper := { currentPos := 0, targetPos := 0, speed := 0, calls := [] },
          Continuous_Mode := true }).stepper.targetPos = 0 + 255 * 3200
    ∧ (updateStepper (parseSpeed 36) 255 ('L'.toNat : Int)
        { stepper := { currentPos := 0, targetPos := 0, speed := 0, calls := [] },
          Continuous_Mode := true }).stepper.targetPos = 0 - 255 * 3200 :=
  ⟨(C1_fixed_turn_target
      { stepper := { currentPos := 0, targetPos := 0, speed := 0, calls := [] },
        Continuous_Mode := true } (parseSpeed 36) 255 (by decide) (by decide)).2.2.2.2.1
      (by decide) (by decide),
   (C1_fixed_turn_target
      { stepper := { currentPos := 0, targetPos := 0, speed := 0, calls := [] },
        Continuous_Mode := true } (parseSpeed 36) 255 (by decide) (by decide)).2.2.2.2.2
      (by decide) (by decide)⟩

/-! ## C2: any other direction character stops -/

/-- C2: for every direction character other than 'R' and 'L', every speed,
every turns value and every prior motor state, `updateStepper` leaves
Continuous_Mode false and the driver's target equal to its current position
(which the call does not move); the speed and turns arguments do not influence
the result; and every received byte other than 82 ('R') and 76 ('L'), bytes
from 128 up included, is such a character after the `(char)` conversion. -/
theorem C2_other_direction_stops (mo : Motor) (newSpeed : F32) (newTurns newDir : Int)
    (hR : newDir ≠ ('R'.toNat : Int)) (hL : newDir ≠ ('L'.toNat : Int)) :
    (updateStepper newSpeed newTurns newDir mo).Continuous_Mode = false
    ∧ (updateStepper newSpeed newTurns newDir mo).stepper.targetPos
        = (updateStepper newSpeed newTurns newDir mo).stepper.currentPos
    ∧ (updateStepper newSpeed newTurns newDir mo).stepper.currentPos = mo.stepper.currentPos
    ∧ (∀ (v : F32) (t : Int),
        updateStepper v t newDir mo = updateStepper newSpeed newTurns newDir mo)
    ∧ (∀ b : Byte, b.val ≠ 'R'.toNat → b.val ≠ 'L'.toNat →
        wrapChar (b.val : Int) ≠ ('R'.toNat : Int) ∧ wrapChar (b.val : Int) ≠ ('L'.toNat : Int)) := by
  have h0 := directionFactor_other newDir hR hL
  refine ⟨?_, ?_, ?_, ?_, ?_⟩
  · unfold updateStepper
    rw [if_pos h0]
  · unfold updateStepper
    rw [if_pos h0]
    rfl
  · unfold updateStepper
    rw [if_pos h0]
    rfl
  · intro v t
    unfold updateStepper
    rw [if_pos h0, if_pos h0]
  · intro b hb1 hb2
    have e1 : 'R'.toNat = 82 := by decide
    have e2 : 'L'.toNat = 76 := by decide
    rw [e1] at hb1 ⊢
    rw [e2] at hb2 ⊢
    have hb := b.isLt
    unfold wrapChar wrapSigned
    norm_num
    omega

/-- C2 (witness): the packet (50, 5, 'X') stops: mode false, target equal to
the current position. -/
theorem C2_other_direction_stops_witness :
    (updateStepper (parseSpeed 50) 5 ('X'.toNat : Int) (motorAt 1234)).Continuous_Mode = false
    ∧ (updateStepper (parseSpeed 50) 5 ('X'.toNat : Int) (motorAt 1234)).stepper.targetPos
        = (updateStepper (parseSpeed 50) 5 ('X'.toNat : Int) (motorAt 1234)).stepper.currentPos :=
  ⟨(C2_other_direction_stops (motorAt 1234) (parseSpeed 50) 5 ('X'.toNat : Int)
      (by decide) (by decide)).1,
   (C2_other_direction_stops (motorAt 1234) (parseSpeed 50) 5 ('X'.toNat : Int)
      (by decide) (by decide)).2.1⟩

/-! ## C3: continuous mode persists -/

/-- C3: for every prior state and every speed, after
`updateStepper(speed, 0, d)` with d in 'R', 'L' Continuous_Mode is true, and
it is still true after every sequence of `runStepper` calls (whatever the
clock), byte arrivals and `runScreen` calls that find fewer than 3 bytes
buffered; no such event changes the flag in any state. -/
theorem C3_continuous_mode_persists (s : State) (newSpeed : F32) (d : Int)
    (hd : d = ('R'.toNat : Int) ∨ d = ('L'.toNat : Int)) (ops : List Op)
    (hidle : idle ops { s with motor := updateStepper newSpeed 0 d s.motor } = true) :
    (updateStepper newSpeed 0 d s.motor).Continuous_Mode = true
    ∧ (run ops { s with motor := updateStepper newSpeed 0 d s.motor }).motor.Continuous_Mode
        = true
    ∧ (∀ (ops2 : List Op) (s2 : State), idle ops2 s2 = true →
        (run ops2 s2).motor.Continuous_Mode = s2.motor.Continuous_Mode) := by
  have hm : (updateStepper newSpeed 0 d s.motor).Continuous_Mode = true := by
    unfold updateStepper
    rcases hd with h | h
    · rw [h, if_neg (by rw [directionFactor_R]; decide), if_pos rfl]
    · rw [h, if_neg (by rw [directionFactor_L]; decide), if_pos rfl]
  refine ⟨hm, ?_, fun ops2 s2 h => run_idle_mode ops2 s2 h⟩
  rw [run_idle_mode ops _ hidle]
  exact hm

/-- C3 (witness): a continuous run to the left from rest survives two ticks,
two buffered bytes and two polls that see fewer than three bytes. -/
theorem C3_continuous_mode_persists_witness :
    (run [Op.step true, Op.receive 10, Op.poll, Op.step false, Op.receive 0, Op.poll]
      { stateAt 0 [] with
        motor := updateStepper (parseSpeed 10) 0 ('L'.toNat : Int) (stateAt 0 []).motor
      }).motor.Continuous_Mode = true :=
  (C3_continuous_mode_persists (stateAt 0 []) (parseSpeed 10) ('L'.toNat : Int)
    (Or.inr rfl)
    [Op.step true, Op.receive 10, Op.poll, Op.step false, Op.receive 0, Op.poll]
    (by decide)).2.1

/-! ## C4: fewer than three bytes buffered -/

/-- C4: in every state with fewer than 3 bytes buffered on the display link,
`runScreen` returns the state unchanged (no byte consumed, nothing written to
the debug port, Continuous_Mode and the driver's position, target, speed and
call log as before), and the returned motor is not the result of any
`updateStepper` call, each of which invokes a driver primitive. -/
theorem C4_short_buffer_no_effect (s : State) (h : s.displaySerial.length < 3) :
    runScreen s = s
    ∧ (runScreen s).displaySerial = s.displaySerial
    ∧ (runScreen s).Serial = s.Serial
    ∧ (runScreen s).motor = s.motor
    ∧ (∀ (v : F32) (t d : Int), updateStepper v t d s.motor ≠ (runScreen s).motor) := by
  have e := runScreen_short s h
  refine ⟨e, by rw [e], by rw [e], by rw [e], ?_⟩
  intro v t d hc
  rw [e] at hc
  have hlen := updateStepper_calls_length v t d s.motor
  rw [hc] at hlen
  exact lt_irrefl _ hlen

/-- C4 (witness): two buffered bytes are left alone. -/
theorem C4_short_buffer_no_effect_witness :
    runScreen (stateAt 0 [36, 2]) = stateAt 0 [36, 2] :=
  (C4_short_buffer_no_effect (stateAt 0 [36, 2]) (by decide)).1

/-! ## C5: a complete packet -/

/-- C5: for every input queue b0, b1, b2, rest and every state, `runScreen`
consumes exactly the first three bytes, leaves rest buffered in order, and
leaves the motor in exactly the state
`updateStepper(b0 / 10.0, b1, (char)b2)` produces from the prior motor state.
Instance: bytes (36, 2, 'R') from rest at position 0 parse to the float
nearest 3.6 and give speed 11520 steps per second (3.6 revolutions of 3200
steps), target 6400 and Continuous_Mode false. -/
theorem C5_packet_consumed_and_applied :
    (∀ (b0 b1 b2 : Byte) (rest : List Byte) (s : State),
      (runScreen { s with displaySerial := b0 :: b1 :: b2 :: rest }).displaySerial = rest
      ∧ (runScreen { s with displaySerial := b0 :: b1 :: b2 :: rest }).motor
          = updateStepper (parseSpeed (b0.val : Int)) (b1.val : Int)
              (wrapChar (b2.val : Int)) s.motor)
    ∧ parseSpeed 36 = F32.round 36 10
    ∧ ((runScreen (stateAt 0 [36, 2, 82])).motor.stepper.speed : ℚ) = (36 / 10 : ℚ) * 3200
    ∧ (runScreen (stateAt 0 [36, 2, 82])).motor.stepper.speed = 11520
    ∧ (runScreen (stateAt 0 [36, 2, 82])).motor.stepper.targetPos = 6400
    ∧ (runScreen (stateAt 0 [36, 2, 82])).motor.stepper.currentPos = 0
    ∧ (runScreen (stateAt 0 [36, 2, 82])).motor.Continuous_Mode = false
    ∧ (runScreen (stateAt 0 [36, 2, 82])).displaySerial = [] := by
  have hs : (runScreen (stateAt 0 [36, 2, 82])).motor.stepper.speed = 11520 := by decide
  refine ⟨?_, by decide, ?_, hs, by decide, by decide, by decide, by decide⟩
  · intro b0 b1 b2 rest s
    have ha : available (b0 :: b1 :: b2 :: rest) ≥ 3 := by
      unfold available
      simp only [List.length_cons]
      omega
    unfold runScreen
    simp only [if_pos ha]
    exact ⟨rfl, rfl⟩
  · rw [hs]
    norm_num

/-! ## Speed tables -/

set_option maxRecDepth 100000 in
/-- For each of the 256 bytes: the parsed speed is a binary32 value with a
non-positive exponent, and how it compares with b / 10, cleared of
denominators. -/
theorem parseSpeed_table :
    ∀ b : Byte,
      (parseSpeed (b.val : Int)).e ≤ 0
      ∧ 0 ≤ (parseSpeed (b.val : Int)).m
      ∧ (parseSpeed (b.val : Int)).m ≤ 2 ^ 24
      ∧ -149 ≤ (parseSpeed (b.val : Int)).e
      ∧ ((parseSpeed (b.val : Int)).m * 10
            = (b.val : Int) * 2 ^ (-(parseSpeed (b.val : Int)).e).toNat ↔ 5 ∣ b.val)
      ∧ |(parseSpeed (b.val : Int)).m * 10
            - (b.val : Int) * 2 ^ (-(parseSpeed (b.val : Int)).e).toNat| * 2 ^ 24
          ≤ (b.val : Int) * 2 ^ (-(parseSpeed (b.val : Int)).e).toNat
      ∧ |(parseSpeed (b.val : Int)).m * 10
            - (b.val : Int) * 2 ^ (-(parseSpeed (b.val : Int)).e).toNat| ≤ 5
      ∧ (b.val ≠ 0 → 2 ^ 23 ≤ (parseSpeed (b.val : Int)).m) := by
  decide

set_option maxRecDepth 100000 in
/-- Sign of the speed handed to the driver for the speed bytes 1..102. -/
theorem signedSpeed_sign_table :
    ∀ b : Byte, 1 ≤ b.val → b.val ≤ 102 →
      0 < signedSpeed (parseSpeed (b.val : Int)) ('R'.toNat : Int)
      ∧ signedSpeed (parseSpeed (b.val : Int)) ('L'.toNat : Int) < 0 := by
  decide

/-! ## C6: sign of speed and step delta -/

/-- C6 (counterexample): with speed byte 0 and direction 'R' the signed speed
handed to the driver is 0, not strictly positive (and with 'L' it is 0, not
strictly negative).  From speed byte 103 on, the integer part of the product,
32960 at 103, is above the largest `int`. -/
theorem C6_zero_speed_has_no_sign :
    (runScreen (stateAt 0 [0, 5, 82])).motor.stepper.speed = 0
    ∧ ¬ (0 < (runScreen (stateAt 0 [0, 5, 82])).motor.stepper.speed)
    ∧ ¬ ((runScreen (stateAt 0 [0, 5, 76])).motor.stepper.speed < 0)
    ∧ INT_MAX < F32.trunc (F32.mul (parseSpeed 103) (F32.ofInt STEPS_PER_REV)) := by
  decide

/-- C6 (as amended): for every packet with speed byte b in 1..102 and every
turns byte t, direction byte 'R' (82) hands a strictly positive signed speed
to the driver and 'L' (76) a strictly negative one; and for every speed byte, when t != 0
and the target P + t*3200 resp. P - t*3200 lies in the `long` range, the
target-minus-current step delta is strictly positive for 'R' and strictly
negative for 'L'. -/
theorem C6_direction_sign (b t : Byte) (rest : List Byte) (s : State) :
    (1 ≤ b.val → b.val ≤ 102 →
      0 < (runScreen { s with displaySerial := b :: t :: 82 :: rest }).motor.stepper.speed
      ∧ (runScreen { s with displaySerial := b :: t :: 76 :: rest }).motor.stepper.speed < 0)
    ∧ (t.val ≠ 0 →
        LONG_MIN ≤ s.motor.stepper.currentPos + (t.val : Int) * 3200 →
        s.motor.stepper.currentPos + (t.val : Int) * 3200 ≤ LONG_MAX →
        0 < (runScreen { s with displaySerial := b :: t :: 82 :: rest }).motor.stepper.targetPos
            - (runScreen { s with displaySerial := b :: t :: 82 :: rest }).motor.stepper.currentPos)
    ∧ (t.val ≠ 0 →
        LONG_MIN ≤ s.motor.stepper.currentPos - (t.val : Int) * 3200 →
        s.motor.stepper.currentPos - (t.val : Int) * 3200 ≤ LONG_MAX →
        (runScreen { s with displaySerial := b :: t :: 76 :: rest }).motor.stepper.targetPos
            - (runScreen { s with displaySerial := b :: t :: 76 :: rest }).motor.stepper.currentPos
          < 0) := by
  have cR : wrapChar (((82 : Byte).val : Nat) : Int) = ('R'.toNat : Int) := by decide
  have cL : wrapChar (((76 : Byte).val : Nat) : Int) = ('L'.toNat : Int) := by decide
  have dR : directionFactor ('R'.toNat : Int) ≠ 0 := by decide
  have dL : directionFactor ('L'.toNat : Int) ≠ 0 := by decide
  have ht := t.isLt
  rw [runScreen_packet, runScreen_packet, cR, cL]
  refine ⟨?_, ?_, ?_⟩
  · intro h1 h2
    rw [updateStepper_speed _ _ _ _ dR, updateStepper_speed _ _ _ _ dL]
    exact signedSpeed_sign_table b h1 h2
  · intro h0 h1 h2
    have h0i : (t.val : Int) ≠ 0 := by omega
    obtain ⟨e1, e2⟩ := updateStepper_target (parseSpeed (b.val : Int)) (t.val : Int)
      ('R'.toNat : Int) s.motor dR h0i
    rw [e1, e2]
    unfold targetPosition AccelStepper.currentPosition
    rw [offset_R _ (by unfold INT_MIN; omega) (by unfold INT_MAX; omega),
      wrapLong_eq_self _ h1 h2]
    omega
  · intro h0 h1 h2
    have h0i : (t.val : Int) ≠ 0 := by omega
    obtain ⟨e1, e2⟩ := updateStepper_target (parseSpeed (b.val : Int)) (t.val : Int)
      ('L'.toNat : Int) s.motor dL h0i
    rw [e1, e2]
    unfold targetPosition AccelStepper.currentPosition
    rw [offset_L _ (by unfold INT_MIN; omega) (by unfold INT_MAX; omega)]
    have e3 : s.motor.stepper.currentPos + -((t.val : Int) * 3200)
        = s.motor.stepper.currentPos - (t.val : Int) * 3200 := by ring
    rw [e3, wrapLong_eq_self _ h1 h2]
    omega

/-- C6 (witness): the packets (36, 2, 'R') and (36, 2, 'L') from rest at
position 0. -/
theorem C6_direction_sign_witness :
    (0 < (runScreen { stateAt 0 [] with
            displaySerial := [36, 2, 82] }).motor.stepper.speed
      ∧ (runScreen { stateAt 0 [] with
            displaySerial := [36, 2, 76] }).motor.stepper.speed < 0)
    ∧ 0 < (runScreen { stateAt 0 [] with displaySerial := [36, 2, 82] }).motor.stepper.targetPos
          - (runScreen { stateAt 0 [] with displaySerial := [36, 2, 82] }).motor.stepper.currentPos
    ∧ (runScreen { stateAt 0 [] with displaySerial := [36, 2, 76] }).motor.stepper.targetPos
          - (runScreen { stateAt 0 [] with displaySerial := [36, 2, 76] }).motor.stepper.currentPos
        < 0 :=
  ⟨(C6_direction_sign 36 2 [] (stateAt 0 [])).1 (by decide) (by decide),
   (C6_direction_sign 36 2 [] (stateAt 0 [])).2.1 (by decide) (by decide) (by decide),
   (C6_direction_sign 36 2 [] (stateAt 0 [])).2.2 (by decide) (by decide) (by decide)⟩

/-! ## C7: the packet (10, 0, 'L') -/

/-- C7 (counterexample): the packet (10, 0, 'L') hands -3200 steps per second
to the driver, not -1600: one revolution is 200 * 16 = 3200 steps. -/
theorem C7_speed_is_not_minus_1600 :
    (runScreen (stateAt 0 [10, 0, 76])).motor.stepper.speed = -3200
    ∧ (runScreen (stateAt 0 [10, 0, 76])).motor.stepper.speed ≠ -1600
    ∧ (runScreen (stateAt 0 [10, 0, 76])).motor.stepper.calls = [DriverCall.setSpeed (-3200)] := by
  decide

/-- C7 (as amended): processing the packet (10, 0, 'L'), bytes 10, 0, 76,
through `runScreen` and `updateStepper`, from every prior state, yields parsed speed exactly 1.0
revolutions per second, Continuous_Mode true, and a signed speed of -3200
steps per second (one revolution of STEPS_PER_REV steps, leftwards) handed to
the driver. -/
theorem C7_packet_10_0_L (s : State) (rest : List Byte) :
    (parseSpeed 10).toRat = 1
    ∧ (runScreen { s with displaySerial := 10 :: 0 :: 76 :: rest }).motor
        = updateStepper (parseSpeed 10) 0 ('L'.toNat : Int) s.motor
    ∧ (runScreen { s with displaySerial := 10 :: 0 :: 76 :: rest }).motor.Continuous_Mode = true
    ∧ (runScreen { s with displaySerial := 10 :: 0 :: 76 :: rest }).motor.stepper.speed = -3200
    ∧ (runScreen { s with displaySerial := 10 :: 0 :: 76 :: rest }).motor.stepper.speed
        = -(1 * STEPS_PER_REV) := by
  have dL : directionFactor ('L'.toNat : Int) ≠ 0 := by decide
  have hm : (runScreen { s with displaySerial := 10 :: 0 :: 76 :: rest }).motor
      = updateStepper (parseSpeed 10) 0 ('L'.toNat : Int) s.motor := by
    rw [runScreen_packet]
    rfl
  have hv : signedSpeed (parseSpeed 10) ('L'.toNat : Int) = -3200 := by decide
  refine ⟨?_, hm, ?_, ?_, ?_⟩
  · have h : parseSpeed 10 = ⟨8388608, -23⟩ := by decide
    rw [h]
    unfold F32.toRat
    norm_num
  · rw [hm]
    unfold updateStepper
    rw [if_neg dL, if_pos rfl]
  · rw [hm, updateStepper_speed _ _ _ _ dL, hv]
  · rw [hm, updateStepper_speed _ _ _ _ dL, hv]
    decide

/-! ## C8: the parsed speed -/

/-- C8 (counterexample): speed byte 36 parses to the float
7549747 / 2097152 = 3.599999904632568359375, which is not 36 / 10. -/
theorem C8_byte_36_is_not_exactly_3_6 :
    (parseSpeed 36).toRat = 7549747 / 2097152 ∧ (parseSpeed 36).toRat ≠ 36 / 10 := by
  have h : parseSpeed 36 = ⟨15099494, -22⟩ := by decide
  rw [h]
  unfold F32.toRat
  norm_num

/-- C8 (as amended): for every speed byte b in 0..255, the speed `runScreen`
parses and passes to `updateStepper` is the binary32 float nearest to b / 10:
a 24 bit significand times a power of two, within half a unit in the last
place of b / 10 and within relative error 2^-24.  As a rational number it
equals b / 10 exactly if and only if b is a multiple of 5, e.g. 255 gives
25.5. -/
theorem C8_parsed_speed_nearest (b : Byte) :
    (∀ (t d : Byte) (rest : List Byte) (s : State),
      (runScreen { s with displaySerial := b :: t :: d :: rest }).motor
        = updateStepper (parseSpeed (b.val : Int)) (t.val : Int) (wrapChar (d.val : Int)) s.motor)
    ∧ ((parseSpeed (b.val : Int)).toRat = (b.val : ℚ) / 10 ↔ 5 ∣ b.val)
    ∧ |(parseSpeed (b.val : Int)).toRat - (b.val : ℚ) / 10|
        ≤ (2 : ℚ) ^ (parseSpeed (b.val : Int)).e / 2
    ∧ |(parseSpeed (b.val : Int)).toRat - (b.val : ℚ) / 10| ≤ (b.val : ℚ) / 10 / 2 ^ 24
    ∧ 0 ≤ (parseSpeed (b.val : Int)).m ∧ (parseSpeed (b.val : Int)).m ≤ 2 ^ 24
    ∧ (b.val ≠ 0 → 2 ^ 23 ≤ (parseSpeed (b.val : Int)).m)
    ∧ -149 ≤ (parseSpeed (b.val : Int)).e
    ∧ (parseSpeed 255).toRat = 255 / 10 := by
  obtain ⟨he, hm0, hm1, he1, hiff, hb, hu, hn⟩ := parseSpeed_table b
  have key : ((parseSpeed (b.val : Int)).m : ℚ) / 2 ^ (-(parseSpeed (b.val : Int)).e).toNat
        - (b.val : ℚ) / 10
      = (((parseSpeed (b.val : Int)).m : ℚ) * 10
          - (b.val : ℚ) * 2 ^ (-(parseSpeed (b.val : Int)).e).toNat)
        / (2 ^ (-(parseSpeed (b.val : Int)).e).toNat * 10) := by
    field_simp
    ring
  have hpos : (0 : ℚ) < 2 ^ (-(parseSpeed (b.val : Int)).e).toNat * 10 := by positivity
  refine ⟨fun t d rest s => runScreen_packet b t d rest s, ?_, ?_, ?_, hm0, hm1, hn, he1, ?_⟩
  · rw [toRat_of_nonpos _ he, ← hiff, div_eq_div_iff (by positivity) (by norm_num)]
    constructor
    · intro h
      exact_mod_cast h
    · intro h
      exact_mod_cast h
  · rw [toRat_of_nonpos _ he, two_zpow_of_nonpos _ he, key, abs_div, abs_of_pos hpos,
      div_le_iff₀ hpos]
    have hu2 : |((parseSpeed (b.val : Int)).m : ℚ) * 10
            - (b.val : ℚ) * 2 ^ (-(parseSpeed (b.val : Int)).e).toNat| ≤ 5 := by
      exact_mod_cast hu
    calc |((parseSpeed (b.val : Int)).m : ℚ) * 10
            - (b.val : ℚ) * 2 ^ (-(parseSpeed (b.val : Int)).e).toNat| ≤ 5 := hu2
      _ = 1 / 2 ^ (-(parseSpeed (b.val : Int)).e).toNat / 2
            * (2 ^ (-(parseSpeed (b.val : Int)).e).toNat * 10) := by
          field_simp
          ring
  · rw [toRat_of_nonpos _ he, key, abs_div, abs_of_pos hpos, div_le_iff₀ hpos]
    have hb2 : |((parseSpeed (b.val : Int)).m : ℚ) * 10
            - (b.val : ℚ) * 2 ^ (-(parseSpeed (b.val : Int)).e).toNat| * 2 ^ 24
          ≤ (b.val : ℚ) * 2 ^ (-(parseSpeed (b.val : Int)).e).toNat := by
      exact_mod_cast hb
    calc |((parseSpeed (b.val : Int)).m : ℚ) * 10
            - (b.val : ℚ) * 2 ^ (-(parseSpeed (b.val : Int)).e).toNat|
        ≤ (b.val : ℚ) * 2 ^ (-(parseSpeed (b.val : Int)).e).toNat / 2 ^ 24 := by
          rw [le_div_iff₀ (by positivity)]
          exact hb2
      _ = (b.val : ℚ) / 10 / 2 ^ 24 * (2 ^ (-(parseSpeed (b.val : Int)).e).toNat * 10) := by
          field_simp
          ring
  · have h : parseSpeed 255 = ⟨13369344, -19⟩ := by decide
    rw [h]
    unfold F32.toRat
    norm_num

/-! ## C9: steps per second -/

set_option maxRecDepth 100000 in
/-- C9 (the code at the failing input): speed byte 21 (2.1 revolutions per
second) parses to a float just below 2.1; its float product with 3200 is
13762559 / 2048 = 6719.99951171875, not an integer, and the truncating
conversion hands 6719 to the driver where 320 * 21 = 6720.  Among the speed
bytes 0..102, whose products fit an `int`, the value handed over is 320 * b
except at 21, 42, 47, 84, 89, 94 and 99, where it is 320 * b - 1. -/
theorem C9_truncation_loses_a_step :
    (F32.mul (parseSpeed 21) (F32.ofInt STEPS_PER_REV)) = ⟨13762559, -11⟩
    ∧ speedStepsPerSec (parseSpeed 21) = 6719
    ∧ (runScreen (stateAt 0 [21, 0, 82])).motor.stepper.calls = [DriverCall.setSpeed 6719]
    ∧ (runScreen (stateAt 0 [21, 0, 76])).motor.stepper.calls = [DriverCall.setSpeed (-6719)]
    ∧ (runScreen (stateAt 0 [21, 3, 82])).motor.stepper.calls
        = [DriverCall.moveTo 9600, DriverCall.setSpeed 6719]
    ∧ (6719 : Int) ≠ 1 * 320 * 21
    ∧ (∀ b : Fin 103,
        signedSpeed (parseSpeed (b.val : Int)) ('R'.toNat : Int)
          = 320 * (b.val : Int) - (if b.val ∈ [21, 42, 47, 84, 89, 94, 99] then 1 else 0)
        ∧ signedSpeed (parseSpeed (b.val : Int)) ('L'.toNat : Int)
          = -(320 * (b.val : Int) - (if b.val ∈ [21, 42, 47, 84, 89, 94, 99] then 1 else 0))) := by
  decide

/-! ## C10: one driver primitive per tick -/

/-- C10: for every motor state and every clock input, `runStepper` invokes
exactly one driver primitive: `runSpeed` when Continuous_Mode is true and
`runSpeedToPosition` when it is false; nothing else of the call log changes,
the flag, the target and the speed are untouched, and in continuous mode the
resulting position does not depend on the target position. -/
theorem C10_runStepper_one_primitive (due : Bool) (mo : Motor) :
    (runStepper due mo).stepper.calls
      = mo.stepper.calls
        ++ [if mo.Continuous_Mode then DriverCall.runSpeed else DriverCall.runSpeedToPosition]
    ∧ (runStepper due mo).Continuous_Mode = mo.Continuous_Mode
    ∧ (runStepper due mo).stepper.targetPos = mo.stepper.targetPos
    ∧ (runStepper due mo).stepper.speed = mo.stepper.speed
    ∧ (runStepper due { mo with Continuous_Mode := true }
        = { mo with Continuous_Mode := true, stepper := mo.stepper.runSpeed due })
    ∧ (runStepper due { mo with Continuous_Mode := false }
        = { mo with Continuous_Mode := false, stepper := mo.stepper.runSpeedToPosition due })
    ∧ (∀ target : Int,
        (runStepper due { Continuous_Mode := true,
                          stepper := { mo.stepper with targetPos := target } }).stepper.currentPos
          = (runStepper due { mo with Continuous_Mode := true }).stepper.currentPos) := by
  refine ⟨?_, runStepper_mode due mo, ?_, ?_, rfl, rfl, fun _ => rfl⟩
  · unfold runStepper
    cases h : mo.Continuous_Mode <;> simp [AccelStepper.runSpeed, AccelStepper.runSpeedToPosition]
  · unfold runStepper
    cases h : mo.Continuous_Mode <;> simp [AccelStepper.runSpeed, AccelStepper.runSpeedToPosition]
  · unfold runStepper
    cases h : mo.Continuous_Mode <;> simp [AccelStepper.runSpeed, AccelStepper.runSpeedToPosition]

/-! ## C11: range of the steps-per-second value -/

set_option maxRecDepth 100000 in
/-- C11 (the code at the failing input): for speed byte 103 the float product
`newSpeed * STEPS_PER_REV` has integer part 32960 = 320 * 103, above the
largest `int` 32767, so its conversion to `int speedStepsPerSec` overflows;
the low 16 bits are -32576, and that negative speed is what `setSpeed`
receives for direction 'R'.  The integer part fits an `int` exactly for the
speed bytes 0..102. -/
theorem C11_steps_per_second_overflow_int :
    F32.trunc (F32.mul (parseSpeed 103) (F32.ofInt STEPS_PER_REV)) = 320 * 103
    ∧ INT_MAX < F32.trunc (F32.mul (parseSpeed 103) (F32.ofInt STEPS_PER_REV))
    ∧ speedStepsPerSec (parseSpeed 103) = -32576
    ∧ (runScreen (stateAt 0 [103, 0, 82])).motor.stepper.calls = [DriverCall.setSpeed (-32576)]
    ∧ (∀ b : Byte,
        (F32.trunc (F32.mul (parseSpeed (b.val : Int)) (F32.ofInt STEPS_PER_REV)) ≤ INT_MAX
          ↔ b.val ≤ 102)) := by
  decide

/-! ## C12: no bound against the speed cap -/

theorem wrapInt_range (x : Int) : INT_MIN ≤ wrapInt x ∧ wrapInt x ≤ INT_MAX := by
  unfold INT_MIN INT_MAX wrapInt wrapSigned
  norm_num
  omega

set_option maxRecDepth 100000 in
/-- Speed handed to the driver for the speed bytes 51..102: above the cap. -/
theorem signedSpeed_above_cap_table :
    ∀ b : Fin 52,
      MAX_SPEED < signedSpeed (parseSpeed ((b.val : Int) + 51)) ('R'.toNat : Int)
      ∧ signedSpeed (parseSpeed ((b.val : Int) + 51)) ('L'.toNat : Int) < -MAX_SPEED := by
  decide

/-- C12 (the code at the failing input): for speed byte 255 the claim has
`setSpeed` receive 320 * 255 = 81600, but the argument is an `int`: every
value handed over lies in -32768..32767, and here it is 16064, the low 16 bits
of 81600; for speed byte 205 it is 64, below the cap of 16000; for speed byte
84 it is 26879, one less than 320 * 84.  No bound is applied: for the speed
bytes 51..102 the value handed over is above the cap in magnitude. -/
theorem C12_requested_speed_is_an_int :
    (runScreen (stateAt 0 [255, 0, 82])).motor.stepper.calls = [DriverCall.setSpeed 16064]
    ∧ (16064 : Int) ≠ 320 * 255
    ∧ (∀ (v : F32) (d : Int), INT_MIN ≤ signedSpeed v d ∧ signedSpeed v d ≤ INT_MAX)
    ∧ INT_MAX < 320 * 255
    ∧ (runScreen (stateAt 0 [205, 0, 82])).motor.stepper.calls = [DriverCall.setSpeed 64]
    ∧ (64 : Int) < MAX_SPEED
    ∧ (runScreen (stateAt 0 [84, 0, 82])).motor.stepper.calls = [DriverCall.setSpeed 26879]
    ∧ (26879 : Int) ≠ 320 * 84
    ∧ (∀ b : Fin 52,
        MAX_SPEED < signedSpeed (parseSpeed ((b.val : Int) + 51)) ('R'.toNat : Int)
        ∧ signedSpeed (parseSpeed ((b.val : Int) + 51)) ('L'.toNat : Int) < -MAX_SPEED) := by
  refine ⟨by decide, by decide, ?_, by decide, by decide, by decide, by decide, by decide,
    signedSpeed_above_cap_table⟩
  intro v d
  exact wrapInt_range _

/-! ## C13: order of the driver commands in fixed-turn mode -/

/-- C13: in fixed-turn mode (direction 'R' or 'L', turns != 0), from every
motor state and for every speed, `updateStepper` issues exactly two driver
commands, in this order: `moveTo(target)` with the computed target position,
then `setSpeed(signed speed)`; the speed setting is the last command of the
update, and the driver's speed afterwards is the one handed to `setSpeed`. -/
theorem C13_fixed_turn_moveTo_then_setSpeed (mo : Motor) (newSpeed : F32) (newTurns d : Int)
    (hd : d = ('R'.toNat : Int) ∨ d = ('L'.toNat : Int)) (ht : newTurns ≠ 0) :
    (updateStepper newSpeed newTurns d mo).stepper.calls
      = mo.stepper.calls
        ++ [DriverCall.moveTo (targetPosition mo.stepper newTurns d),
            DriverCall.setSpeed (signedSpeed newSpeed d)]
    ∧ (updateStepper newSpeed newTurns d mo).stepper.calls.getLast?
        = some (DriverCall.setSpeed (signedSpeed newSpeed d))
    ∧ (updateStepper newSpeed newTurns d mo).stepper.speed = signedSpeed newSpeed d
    ∧ (updateStepper newSpeed newTurns d mo).stepper.targetPos
        = targetPosition mo.stepper newTurns d := by
  have hdf : directionFactor d ≠ 0 := by
    rcases hd with h | h
    · rw [h, directionFactor_R]
      decide
    · rw [h, directionFactor_L]
      decide
  have hc : (updateStepper newSpeed newTurns d mo).stepper.calls
      = mo.stepper.calls
        ++ [DriverCall.moveTo (targetPosition mo.stepper newTurns d),
            DriverCall.setSpeed (signedSpeed newSpeed d)] := by
    unfold updateStepper
    rw [if_neg hdf, if_neg ht]
    simp [AccelStepper.moveTo, AccelStepper.setSpeed]
  refine ⟨hc, ?_, updateStepper_speed _ _ _ _ hdf, (updateStepper_target _ _ _ _ hdf ht).1⟩
  rw [hc]
  simp

/-- C13 (witness): the packet (36, 2, 'R') from rest at position 0 issues
`moveTo(6400)` and then `setSpeed(11520)`. -/
theorem C13_fixed_turn_moveTo_then_setSpeed_witness :
    (updateStepper (parseSpeed 36) 2 ('R'.toNat : Int) (motorAt 0)).stepper.calls
      = (motorAt 0).stepper.calls
        ++ [DriverCall.moveTo (targetPosition (motorAt 0).stepper 2 ('R'.toNat : Int)),
            DriverCall.setSpeed (signedSpeed (parseSpeed 36) ('R'.toNat : Int))]
    ∧ (updateStepper (parseSpeed 36) 2 ('R'.toNat : Int) (motorAt 0)).stepper.calls
      = [DriverCall.moveTo 6400, DriverCall.setSpeed 11520] :=
  ⟨(C13_fixed_turn_moveTo_then_setSpeed (motorAt 0) (parseSpeed 36) 2 ('R'.toNat : Int)
      (Or.inl rfl) (by decide)).1, by decide⟩

/-! ## C14: framing by byte count -/

theorem runScreen_cons3 (s : State) (b0 b1 b2 : Byte) (rest : List Byte)
    (h : s.displaySerial = b0 :: b1 :: b2 :: rest) :
    (runScreen s).displaySerial = rest
    ∧ (runScreen s).motor
        = updateStepper (parseSpeed (b0.val : Int)) (b1.val : Int) (wrapChar (b2.val : Int))
            s.motor := by
  have ha : available s.displaySerial ≥ 3 := by
    rw [h]
    unfold available
    simp only [List.length_cons]
    omega
  unfold runScreen
  simp only [if_pos ha]
  rw [h]
  exact ⟨rfl, rfl⟩

theorem runScreenTimes_triples (k : Nat) :
    ∀ s : State, s.displaySerial.length = 3 * k →
      (runScreenTimes k s).displaySerial = []
      ∧ (runScreenTimes k s).motor = applyTriples s.displaySerial s.motor := by
  induction k with
  | zero =>
    intro s h
    have hnil : s.displaySerial = [] := List.length_eq_zero.mp (by omega)
    rw [hnil]
    exact ⟨hnil, rfl⟩
  | succ k ih =>
    intro s h
    match hq : s.displaySerial, h with
    | b0 :: b1 :: b2 :: rest, h =>
      obtain ⟨e1, e2⟩ := runScreen_cons3 s b0 b1 b2 rest hq
      have hlen : (runScreen s).displaySerial.length = 3 * k := by
        rw [e1]
        simp only [List.length_cons] at h
        omega
      obtain ⟨i1, i2⟩ := ih (runScreen s) hlen
      refine ⟨i1, ?_⟩
      show (runScreenTimes k (runScreen s)).motor = _
      rw [i2, e1, e2]
      rfl
    | [], h => exact absurd h (by simp only [List.length_nil]; omega)
    | [_], h => exact absurd h (by simp only [List.length_cons, List.length_nil]; omega)
    | [_, _], h => exact absurd h (by simp only [List.length_cons, List.length_nil]; omega)

/-- C14: framing depends only on the byte count.  For every state whose
display buffer holds 3k bytes, k successive `runScreen` calls empty the buffer
and leave the motor as `updateStepper` applied to the consecutive triples in
arrival order leaves it; and for every stray byte x in front of a frame
(sp, t, d), the first `runScreen` on x, sp, t, d calls
`updateStepper(x / 10.0, sp, (char)t)` and leaves d buffered: there is no
resynchronisation. -/
theorem C14_framing_by_count (k : Nat) (s : State) (h : s.displaySerial.length = 3 * k) :
    (runScreenTimes k s).displaySerial = []
    ∧ (runScreenTimes k s).motor = applyTriples s.displaySerial s.motor
    ∧ (∀ (x sp t d : Byte) (rest : List Byte) (s2 : State),
        (runScreen { s2 with displaySerial := x :: sp :: t :: d :: rest }).motor
          = updateStepper (parseSpeed (x.val : Int)) (sp.val : Int) (wrapChar (t.val : Int))
              s2.motor
        ∧ (runScreen { s2 with displaySerial := x :: sp :: t :: d :: rest }).displaySerial
          = d :: rest) := by
  obtain ⟨e1, e2⟩ := runScreenTimes_triples k s h
  refine ⟨e1, e2, ?_⟩
  intro x sp t d rest s2
  obtain ⟨a1, a2⟩ := runScreen_cons3 { s2 with displaySerial := x :: sp :: t :: d :: rest }
    x sp t (d :: rest) rfl
  exact ⟨a2, a1⟩

/-- C14 (witness): the frames (36, 2, 'R') and (10, 0, 'L') buffered together
are applied in order by two `runScreen` calls, ending in continuous mode at
-3200 steps per second with the buffer empty. -/
theorem C14_framing_by_count_witness :
    (runScreenTimes 2 (stateAt 0 [36, 2, 82, 10, 0, 76])).displaySerial = []
    ∧ (runScreenTimes 2 (stateAt 0 [36, 2, 82, 10, 0, 76])).motor
        = applyTriples [36, 2, 82, 10, 0, 76] (motorAt 0)
    ∧ (runScreenTimes 2 (stateAt 0 [36, 2, 82, 10, 0, 76])).motor.stepper.calls
        = [DriverCall.moveTo 6400, DriverCall.setSpeed 11520, DriverCall.setSpeed (-3200)] :=
  ⟨(C14_framing_by_count 2 (stateAt 0 [36, 2, 82, 10, 0, 76]) (by decide)).1,
   (C14_framing_by_count 2 (stateAt 0 [36, 2, 82, 10, 0, 76]) (by decide)).2.1,
   by decide⟩

/-! ## C15: the update does not move the motor -/

/-- C15: for every motor state and every argument triple (speed, turns,
direction), `updateStepper` leaves the driver's current position unchanged;
so do `runScreen`, in every state, and the arrival of a byte.  The position
moves only through `runStepper`, which does move it: a due tick in continuous
mode at a positive speed advances it by one step. -/
theorem C15_update_keeps_position :
    (∀ (newSpeed : F32) (newTurns newDir : Int) (mo : Motor),
      (updateStepper newSpeed newTurns newDir mo).stepper.currentPos = mo.stepper.currentPos)
    ∧ (∀ s : State, (runScreen s).motor.stepper.currentPos = s.motor.stepper.currentPos)
    ∧ (∀ (b : Byte) (s : State),
        ((Op.receive b).apply s).motor.stepper.currentPos = s.motor.stepper.currentPos)
    ∧ (runStepper true (updateStepper (parseSpeed 10) 0 ('R'.toNat : Int) (motorAt 7))
        ).stepper.currentPos = 8 := by
  have hu : ∀ (newSpeed : F32) (newTurns newDir : Int) (mo : Motor),
      (updateStepper newSpeed newTurns newDir mo).stepper.currentPos
        = mo.stepper.currentPos := by
    intro v t d mo
    unfold updateStepper
    split
    · rfl
    · split <;> rfl
  refine ⟨hu, ?_, fun _ _ => rfl, by decide⟩
  intro s
  unfold runScreen
  split
  · exact hu _ _ _ _
  · rfl

/-! ## C16: continuous mode keeps the old target -/

/-- C16: for every motor state and every speed, `updateStepper(speed, 0, d)`
with d in 'R', 'L' issues exactly one driver command, `setSpeed`, and no
target command: the driver's target position after the call equals the target
position before it. -/
theorem C16_continuous_keeps_target (mo : Motor) (newSpeed : F32) (d : Int)
    (hd : d = ('R'.toNat : Int) ∨ d = ('L'.toNat : Int)) :
    (updateStepper newSpeed 0 d mo).stepper.targetPos = mo.stepper.targetPos
    ∧ (updateStepper newSpeed 0 d mo).stepper.calls
        = mo.stepper.calls ++ [DriverCall.setSpeed (signedSpeed newSpeed d)]
    ∧ (updateStepper newSpeed 0 d mo).Continuous_Mode = true := by
  have hdf : directionFactor d ≠ 0 := by
    rcases hd with h | h
    · rw [h, directionFactor_R]
      decide
    · rw [h, directionFactor_L]
      decide
  unfold updateStepper
  rw [if_neg hdf, if_pos rfl]
  exact ⟨rfl, rfl, rfl⟩

/-- C16 (witness): the target 6400 left by the fixed-turn packet (36, 2, 'R')
survives the continuous packet (10, 0, 'L'). -/
theorem C16_continuous_keeps_target_witness :
    (updateStepper (parseSpeed 10) 0 ('L'.toNat : Int)
        (updateStepper (parseSpeed 36) 2 ('R'.toNat : Int) (motorAt 0))).stepper.targetPos
      = (updateStepper (parseSpeed 36) 2 ('R'.toNat : Int) (motorAt 0)).stepper.targetPos
    ∧ (updateStepper (parseSpeed 10) 0 ('L'.toNat : Int)
        (updateStepper (parseSpeed 36) 2 ('R'.toNat : Int) (motorAt 0))).stepper.targetPos
      = 6400 :=
  ⟨(C16_continuous_keeps_target (updateStepper (parseSpeed 36) 2 ('R'.toNat : Int) (motorAt 0))
      (parseSpeed 10) ('L'.toNat : Int) (Or.inr rfl)).1, by decide⟩

end RotatingMagneticSetup
